import Mathlib

/-!
Verification of the scheduled-campaign dispatch engine of the email-cron
repository, as a shallow embedding in Lean.

Embedded source files:
* `src/lib/services/cron-service.ts` (`processScheduledEmails`, the claim
  cycle with conditional `updateMany` guards);
* `src/lib/services/email-service.ts` (`sendBulkEmails`, the batch
  dispatcher);
* the Resend webhook route (`POST`, the delivery-event reconciler);
* `src/app/api/emails/cron/route.ts` (`GET`, the trigger surface).

The Prisma status store is modelled as explicit lists of rows; every
conditional `updateMany` becomes a pure list transformation returning the
affected-row count.  Machine timestamps are `Nat` (epoch milliseconds);
JavaScript string truthiness is modelled explicitly where the source relies
on it.  Exceptions at the dispatch `await` are modelled with `Except`.
-/

namespace EmailCron

/-- Campaign status enum, from `EmailCampaignStatus` in `lib/types/email`. -/
inductive EmailCampaignStatus
  | draft
  | scheduled
  | sending
  | sent
  | failed
  deriving DecidableEq, Repr

/-- Recipient status enum, from `EmailRecipientStatus` in `lib/types/email`. -/
inductive EmailRecipientStatus
  | pending
  | sent
  | failed
  deriving DecidableEq, Repr

/-- An `EmailCampaign` row (the fields the dispatch engine touches). -/
structure EmailCampaign where
  id : String
  subject : String
  body : String
  status : EmailCampaignStatus
  scheduledAt : Option Nat
  sentAt : Option Nat
  deriving DecidableEq, Repr

/-- An `EmailRecipient` row (the fields the dispatch engine touches). -/
structure EmailRecipient where
  id : String
  campaignId : String
  recipientEmail : String
  status : EmailRecipientStatus
  sentAt : Option Nat
  errorMessage : Option String
  resendEmailId : Option String
  lastEvent : Option String
  deriving DecidableEq, Repr

/-- A `WebhookEvent` row (the DeliveryEvent dedupe record). -/
structure WebhookEvent where
  svixId : String
  type : String
  emailId : Option String
  deriving DecidableEq, Repr

/-- The status store: campaigns, recipients and webhook-event records. -/
structure DB where
  campaigns : List EmailCampaign
  recipients : List EmailRecipient
  webhookEvents : List WebhookEvent
  deriving DecidableEq, Repr

/-- JavaScript truthiness of an optional string: `undefined`/`null` and the
empty string are falsy. -/
def strTruthy : Option String → Bool
  | none => false
  | some s => s ≠ ""

/-- Prisma `updateMany({ where: { key: k, ...P }, data: f })` over a list of
rows: every row whose key equals `k` and satisfies `P` is rewritten by `f`;
the affected-row count is returned alongside. -/
def updateWhere {α : Type} (key : α → String) (P : α → Prop) [DecidablePred P]
    (f : α → α) (k : String) (l : List α) : List α × Nat :=
  (l.map (fun a => if key a = k ∧ P a then f a else a),
   l.countP (fun a => decide (key a = k ∧ P a)))

/-- Conditional campaign update: `prisma.emailCampaign.updateMany` with a
`where` clause on `id` and on the current status. -/
def updateCampaignWhere (db : DB) (cid : String) (P : EmailCampaignStatus → Prop)
    [DecidablePred P] (f : EmailCampaign → EmailCampaign) : DB × Nat :=
  let r := updateWhere (fun c => c.id) (fun c => P c.status) f cid db.campaigns
  ({ db with campaigns := r.1 }, r.2)

/-- Conditional recipient update: `prisma.emailRecipient.updateMany` with a
`where` clause on `id` and on the current status. -/
def updateRecipientWhere (db : DB) (rid : String) (P : EmailRecipientStatus → Prop)
    [DecidablePred P] (f : EmailRecipient → EmailRecipient) : DB × Nat :=
  let r := updateWhere (fun c => c.id) (fun c => P c.status) f rid db.recipients
  ({ db with recipients := r.1 }, r.2)

/-- `prisma.emailCampaign.findUnique({ where: { id } })`. -/
def findCampaign (db : DB) (cid : String) : Option EmailCampaign :=
  db.campaigns.find? (fun c => decide (c.id = cid))

/-- The PENDING recipients of a campaign, as fetched by the cycle's
`include: { recipients: { where: { status: PENDING } } }`. -/
def pendingRecipients (db : DB) (cid : String) : List EmailRecipient :=
  db.recipients.filter
    (fun r => decide (r.campaignId = cid ∧ r.status = EmailRecipientStatus.pending))

/-! ## Batch dispatcher: `sendBulkEmails` (email-service.ts) -/

/-- One element of the `emails` argument of `sendBulkEmails`. -/
structure BulkEmail where
  «to» : String
  subject : String
  html : String
  deriving DecidableEq, Repr

/-- One element of the result list of `sendBulkEmails`. -/
structure SendBulkEmailResult where
  «to» : String
  success : Bool
  error : Option String
  resendEmailId : Option String
  deriving DecidableEq, Repr

/-- The outcome of one `resend.batch.send` call:
* `thrown msg`: the call threw (`msg` is `err.message` when the thrown value
  is an `Error`, `none` otherwise);
* `errorResp msg`: the call returned `{ error }` (`msg` is the possibly
  missing `error.message`);
* `noData`: the call returned without `data.data`;
* `items ids`: the call returned `data.data`, one optional `id` per item. -/
inductive ProviderResponse
  | thrown (msg : Option String)
  | errorResp (msg : Option String)
  | noData
  | items (ids : List (Option String))
  deriving DecidableEq, Repr

/-- The options of `sendBulkEmails`.  `idempotencyKeyBase` embeds the source
option holding the idempotency-key stem (e.g. a campaign id); the `from` and
`replyTo` options only shape the provider payload and are omitted. -/
structure SendBulkEmailsOptions where
  batchSize : Option Nat
  delayBetweenBatches : Option Nat
  idempotencyKeyBase : Option String
  deriving DecidableEq, Repr

/-- `Math.min(options?.batchSize ?? 10, 100)`. -/
def batchSizeOf (opts : SendBulkEmailsOptions) : Nat :=
  min (opts.batchSize.getD 10) 100

/-- The idempotency key passed to `resend.batch.send` for chunk `bIdx`. -/
def bulkKey (opts : SendBulkEmailsOptions) (bIdx : Nat) : Option String :=
  opts.idempotencyKeyBase.map (fun p => p ++ "-batch-" ++ toString bIdx)

/-- One outbound `resend.batch.send` call, as issued by the dispatch loop. -/
structure ProviderCall where
  batchIndex : Nat
  idempotencyKey : Option String
  members : List BulkEmail
  deriving DecidableEq, Repr

/-- The results pushed for one chunk, from the body of the dispatch loop:
the `catch` branch, the `error` branch, the missing-data branch, and the
`data.data.forEach` branch.  JavaScript `||` and `!!` truthiness on strings
is rendered with `strTruthy`. -/
def batchOutcomes (resp : ProviderResponse) (batch : List BulkEmail) :
    List SendBulkEmailResult :=
  match resp with
  | ProviderResponse.thrown msg =>
      batch.map (fun e => ⟨e.to, false, some (msg.getD "Failed to send"), none⟩)
  | ProviderResponse.errorResp msg =>
      batch.map (fun e =>
        ⟨e.to, false,
         some (if strTruthy msg then msg.getD "" else "Batch send failed"), none⟩)
  | ProviderResponse.noData =>
      batch.map (fun e => ⟨e.to, false, some "No response data", none⟩)
  | ProviderResponse.items ids =>
      ids.mapIdx (fun idx id =>
        ⟨((batch.get? idx).map (fun e => e.to)).getD "unknown",
         strTruthy id,
         if strTruthy id then none else some "No email ID returned",
         id⟩)

/-- The `for (let i = 0; i < emails.length; i += batchSize)` loop of
`sendBulkEmails`, rendered on the remaining email list.  `fuel` bounds the
number of iterations; `none` means the loop did not finish within `fuel`
iterations (with a batch size of `0` the loop index never advances, so no
fuel suffices).  Returns the outcome list and the provider calls issued. -/
def sendBulkGo (provider : Nat → ProviderResponse) (opts : SendBulkEmailsOptions) :
    Nat → Nat → List BulkEmail →
      Option (List SendBulkEmailResult × List ProviderCall)
  | _, _, [] => some ([], [])
  | 0, _, _ :: _ => none
  | fuel + 1, bIdx, e :: es =>
      let b := batchSizeOf opts
      let batch := (e :: es).take b
      match sendBulkGo provider opts fuel (bIdx + 1) ((e :: es).drop b) with
      | none => none
      | some (results, calls) =>
          some (batchOutcomes (provider bIdx) batch ++ results,
                ⟨bIdx, bulkKey opts bIdx, batch⟩ :: calls)

/-- `sendBulkEmails(emails, options)`: the loop with enough fuel for any
positive batch size (each iteration then consumes at least one email). -/
def sendBulkEmails (provider : Nat → ProviderResponse)
    (emails : List BulkEmail) (opts : SendBulkEmailsOptions) :
    Option (List SendBulkEmailResult × List ProviderCall) :=
  sendBulkGo provider opts (emails.length + 1) 0 emails

/-- Chunk-structured rendering of the dispatch loop for a positive batch
size `bm1 + 1`; used to reason about the fuel-based loop, to which it is
proved equal. -/
def chunkRun (provider : Nat → ProviderResponse) (opts : SendBulkEmailsOptions)
    (bm1 : Nat) : Nat → List BulkEmail →
      List SendBulkEmailResult × List ProviderCall
  | _, [] => ([], [])
  | bIdx, e :: es =>
      let batch := (e :: es).take (bm1 + 1)
      let rest := chunkRun provider opts bm1 (bIdx + 1) (es.drop bm1)
      (batchOutcomes (provider bIdx) batch ++ rest.1,
       ⟨bIdx, bulkKey opts bIdx, batch⟩ :: rest.2)
  termination_by _ l => l.length
  decreasing_by
    simp only [List.length_drop, List.length_cons]
    omega

/-- The options the claim cycle passes to `sendBulkEmails`
(cron-service.ts: `{ batchSize: 10, delayBetweenBatches: 1000 }`; no
idempotency-key option is passed there). -/
def cronBulkSendOptions : SendBulkEmailsOptions :=
  { batchSize := some 10, delayBetweenBatches := some 1000,
    idempotencyKeyBase := none }

/-! ## Campaign claim engine: `processScheduledEmails` (cron-service.ts) -/

/-- The running totals and error list of one cycle. -/
structure CycleStats where
  processed : Nat
  sent : Nat
  failed : Nat
  errors : List String
  deriving DecidableEq, Repr

/-- The store together with the cycle's running totals. -/
structure CycleState where
  db : DB
  stats : CycleStats
  deriving DecidableEq, Repr

/-- The dispatch step `await sendBulkEmails(emails, …)` as seen by the
cycle: given the campaign id and the prepared email list it either returns
the per-recipient outcome list or throws (`Except.error msg`, where `msg`
is the thrown `Error`'s message, `none` for a non-`Error` value).  This is
where the cycle's `catch` can be exercised. -/
def DispatchOracle : Type :=
  String → List BulkEmail → Except (Option String) (List SendBulkEmailResult)

/-- `result?.error || "Unknown error"` for the aligned outcome of one
recipient (`none` when `emailResults[i]` is out of range). -/
def failureMessage (res : Option SendBulkEmailResult) : String :=
  match res with
  | some v => if strTruthy v.error then v.error.getD "" else "Unknown error"
  | none => "Unknown error"

/-- Whether `result?.success` holds for the aligned outcome. -/
def resultSuccess (res : Option SendBulkEmailResult) : Bool :=
  match res with
  | some v => v.success
  | none => false

/-- The `data` of the conditional PENDING→SENT recipient update:
`{ status: SENT, sentAt: new Date() }`. -/
def markSent (now : Nat) (r : EmailRecipient) : EmailRecipient :=
  { r with status := EmailRecipientStatus.sent, sentAt := some now }

/-- The `data` of the conditional PENDING→FAILED recipient update:
`{ status: FAILED, errorMessage: result?.error || "Unknown error" }`. -/
def markFailedRecipient (msg : String) (r : EmailRecipient) : EmailRecipient :=
  { r with status := EmailRecipientStatus.failed, errorMessage := some msg }

/-- The reconcile loop over `recipientsToProcess` and `emailResults`:
per index, a conditional PENDING→SENT update (counting a success only when
a row was affected) or a conditional PENDING→FAILED update (always counted
as a failure).  Returns the store plus `(successCount, failedCount)`. -/
def reconcileLoop (now : Nat) :
    DB → List EmailRecipient → List SendBulkEmailResult → DB × Nat × Nat
  | db, [], _ => (db, 0, 0)
  | db, r :: rs, results =>
      if resultSuccess results.head? then
        let u := updateRecipientWhere db r.id
          (fun s => s = EmailRecipientStatus.pending) (markSent now)
        let rest := reconcileLoop now u.1 rs (results.drop 1)
        (rest.1, (if 0 < u.2 then 1 else 0) + rest.2.1, rest.2.2)
      else
        let u := updateRecipientWhere db r.id
          (fun s => s = EmailRecipientStatus.pending)
          (markFailedRecipient (failureMessage results.head?))
        let rest := reconcileLoop now u.1 rs (results.drop 1)
        (rest.1, rest.2.1, 1 + rest.2.2)

/-- The `successCount` the reconcile loop accumulates when every
conditional PENDING→SENT update affects a row (the sequential case). -/
def succOutcomes : List EmailRecipient → List SendBulkEmailResult → Nat
  | [], _ => 0
  | _ :: rs, results =>
      (if resultSuccess results.head? then 1 else 0) + succOutcomes rs (results.drop 1)

/-- The `failedCount` the reconcile loop accumulates. -/
def failOutcomes : List EmailRecipient → List SendBulkEmailResult → Nat
  | [], _ => 0
  | _ :: rs, results =>
      (if resultSuccess results.head? then 0 else 1) + failOutcomes rs (results.drop 1)

/-- The `data` of the conditional claim: `{ status: SENDING }`. -/
def toSending (c : EmailCampaign) : EmailCampaign :=
  { c with status := EmailCampaignStatus.sending }

/-- The `data` of the zero-recipient finish:
`{ status: SENT, sentAt: new Date() }`. -/
def toSentNow (now : Nat) (c : EmailCampaign) : EmailCampaign :=
  { c with status := EmailCampaignStatus.sent, sentAt := some now }

/-- The `data` of the catch-branch update: `{ status: FAILED }`. -/
def toFailedCampaign (c : EmailCampaign) : EmailCampaign :=
  { c with status := EmailCampaignStatus.failed }

/-- The `data` of the finalize update: `{ status: finalStatus, sentAt:
finalStatus === SENT ? new Date() : undefined }` (an `undefined` field is
not written). -/
def finalizeData (finalStatus : EmailCampaignStatus) (now : Nat)
    (c : EmailCampaign) : EmailCampaign :=
  if finalStatus = EmailCampaignStatus.sent then
    { c with status := finalStatus, sentAt := some now }
  else
    { c with status := finalStatus }

/-- The body of the per-campaign loop of `processScheduledEmails` for one
candidate `(campaign, snapshotRecipients)` (the campaign row and its
PENDING recipients as fetched by the candidate query):
1. conditional claim SCHEDULED→SENDING; zero affected rows means another
   invocation claimed it — skip silently;
2. zero snapshot recipients: conditional SENDING→SENT with `sentAt`;
3. re-fetch the campaign and its PENDING recipients; skip if it is gone or
   no longer SENDING;
4. dispatch via the oracle; a thrown dispatch is caught: the message is
   appended to the error list and the campaign is conditionally forced
   {SENDING,SCHEDULED}→FAILED;
5. otherwise reconcile recipients and conditionally finalize
   SENDING→{SENT,FAILED}, setting `sentAt` only on SENT. -/
def processOne (oracle : DispatchOracle) (now : Nat) (st : CycleState)
    (cand : EmailCampaign × List EmailRecipient) : CycleState :=
  let campaign := cand.1
  let snapshot := cand.2
  let claim := updateCampaignWhere st.db campaign.id
    (fun s => s = EmailCampaignStatus.scheduled) toSending
  if claim.2 = 0 then
    { st with db := claim.1 }
  else if snapshot.length = 0 then
    let fin := updateCampaignWhere claim.1 campaign.id
      (fun s => s = EmailCampaignStatus.sending) (toSentNow now)
    { db := fin.1, stats := { st.stats with processed := st.stats.processed + 1 } }
  else
    match findCampaign claim.1 campaign.id with
    | none => { st with db := claim.1 }
    | some current =>
      if current.status ≠ EmailCampaignStatus.sending then
        { st with db := claim.1 }
      else
        let recipientsToProcess := pendingRecipients claim.1 campaign.id
        let emails := recipientsToProcess.map
          (fun r => ⟨r.recipientEmail, current.subject, current.body⟩)
        match oracle campaign.id emails with
        | Except.error err =>
            let msg := err.getD "Unknown error"
            let fail := updateCampaignWhere claim.1 campaign.id
              (fun s => s = EmailCampaignStatus.sending ∨ s = EmailCampaignStatus.scheduled)
              toFailedCampaign
            { db := fail.1,
              stats := { st.stats with
                processed := st.stats.processed + 1,
                errors := st.stats.errors ++ ["Campaign " ++ campaign.id ++ ": " ++ msg] } }
        | Except.ok emailResults =>
            let rec1 := reconcileLoop now claim.1 recipientsToProcess emailResults
            let successCount := rec1.2.1
            let failedCount := rec1.2.2
            let finalStatus :=
              if failedCount = 0 then EmailCampaignStatus.sent
              else if 0 < successCount then EmailCampaignStatus.sent
              else EmailCampaignStatus.failed
            let fin := updateCampaignWhere rec1.1 campaign.id
              (fun s => s = EmailCampaignStatus.sending) (finalizeData finalStatus now)
            { db := fin.1,
              stats := { processed := st.stats.processed + 1,
                         sent := st.stats.sent + successCount,
                         failed := st.stats.failed + failedCount,
                         errors := st.stats.errors } }

/-- The `for (const campaign of campaigns)` loop. -/
def cycleLoop (oracle : DispatchOracle) (now : Nat) :
    CycleState → List (EmailCampaign × List EmailRecipient) → CycleState
  | st, [] => st
  | st, cand :: rest => cycleLoop oracle now (processOne oracle now st cand) rest

/-- Insertion into a list sorted by ascending `scheduledAt`. -/
def insertByTime (c : EmailCampaign) : List EmailCampaign → List EmailCampaign
  | [] => [c]
  | d :: ds =>
      if c.scheduledAt.getD 0 ≤ d.scheduledAt.getD 0 then c :: d :: ds
      else d :: insertByTime c ds

/-- `orderBy: { scheduledAt: "asc" }`. -/
def sortByScheduled : List EmailCampaign → List EmailCampaign
  | [] => []
  | c :: cs => insertByTime c (sortByScheduled cs)

/-- The candidate query: campaigns with `status = SCHEDULED` and
`scheduledAt ≤ now` (null excluded), ordered by `scheduledAt` ascending,
limited to `MAX_CAMPAIGNS_PER_RUN = 50`, each with its PENDING
recipients. -/
def dueCandidates (db : DB) (now : Nat) :
    List (EmailCampaign × List EmailRecipient) :=
  let due := db.campaigns.filter (fun c =>
    decide (c.status = EmailCampaignStatus.scheduled) &&
      match c.scheduledAt with
      | some t => decide (t ≤ now)
      | none => false)
  ((sortByScheduled due).take 50).map (fun c => (c, pendingRecipients db c.id))

/-- `processScheduledEmails()`: the candidate query followed by the
per-campaign loop, starting from zeroed totals.  The debug queries and the
inter-campaign delay have no effect on the store or the result and are not
modelled. -/
def processScheduledEmails (oracle : DispatchOracle) (now : Nat) (db : DB) :
    CycleState :=
  cycleLoop oracle now ⟨db, ⟨0, 0, 0, []⟩⟩ (dueCandidates db now)

/-! ## Delivery event reconciler: the Resend webhook `POST` route -/

/-- The recognized delivery-lifecycle event types (`EMAIL_EVENTS`). -/
def EMAIL_EVENTS : List String :=
  ["email.sent", "email.delivered", "email.opened", "email.clicked",
   "email.bounced", "email.failed", "email.complained",
   "email.delivery_delayed", "email.suppressed"]

/-- `isEmailEvent`. -/
def isEmailEvent (t : String) : Bool := EMAIL_EVENTS.contains t

/-- `eventToLastEvent`: strips the `email.` namespace per the source map. -/
def eventToLastEvent (t : String) : String :=
  if t = "email.sent" then "sent"
  else if t = "email.delivered" then "delivered"
  else if t = "email.opened" then "opened"
  else if t = "email.clicked" then "clicked"
  else if t = "email.bounced" then "bounced"
  else if t = "email.failed" then "failed"
  else if t = "email.complained" then "complained"
  else if t = "email.delivery_delayed" then "delivery_delayed"
  else if t = "email.suppressed" then "suppressed"
  else t

/-- `shouldSetFailedStatus`: the two failure-class event types. -/
def shouldSetFailedStatus (t : String) : Bool :=
  t = "email.bounced" || t = "email.failed"

/-- The three `svix-*` request headers (`none` = header absent). -/
structure WebhookHeaders where
  svixId : Option String
  svixTimestamp : Option String
  svixSignature : Option String
  deriving DecidableEq, Repr

/-- The verified webhook body fields the route reads. -/
structure WebhookBody where
  type : Option String
  emailId : Option String
  bounceMessage : Option String
  failedReason : Option String
  deriving DecidableEq, Repr

/-- An inbound webhook request.  `signatureValid` abstracts the outcome of
`wh.verify` (the svix cryptographic check); `body` is the verified payload
the route would obtain when verification succeeds. -/
structure WebhookRequest where
  headers : WebhookHeaders
  signatureValid : Bool
  body : WebhookBody
  deriving DecidableEq, Repr

/-- The route's distinct responses. -/
inductive WebhookResponse
  | secretUnset
  | missingHeaders
  | invalidSignature
  | received
  deriving DecidableEq, Repr

/-- The recipient `updateMany` data of the webhook route: always set
`lastEvent`; for failure-class events also set `status = FAILED`, and set
`errorMessage` only when the extracted message is truthy. -/
def applyWebhookUpdate (eventType lastEvent : String) (errMsg : Option String)
    (r : EmailRecipient) : EmailRecipient :=
  if shouldSetFailedStatus eventType then
    if strTruthy errMsg then
      { r with lastEvent := some lastEvent, status := EmailRecipientStatus.failed,
               errorMessage := errMsg }
    else
      { r with lastEvent := some lastEvent, status := EmailRecipientStatus.failed }
  else
    { r with lastEvent := some lastEvent }

/-- The webhook `POST` handler (`handleDeliveryEvent`):
secret check, header check, signature verification, event-type filter,
svix-id dedupe lookup, DeliveryEvent creation, and the recipient
`updateMany` keyed on `resendEmailId` (no status guard in its `where`). -/
def webhookPOST (secretConfigured : Bool) (db : DB) (req : WebhookRequest) :
    DB × WebhookResponse :=
  if ¬ secretConfigured then (db, WebhookResponse.secretUnset)
  else if ¬ (strTruthy req.headers.svixId ∧ strTruthy req.headers.svixTimestamp ∧
      strTruthy req.headers.svixSignature) then
    (db, WebhookResponse.missingHeaders)
  else if ¬ req.signatureValid then (db, WebhookResponse.invalidSignature)
  else
    let svixId := req.headers.svixId.getD ""
    let eventType := req.body.type.getD ""
    if ¬ (strTruthy req.body.type ∧ isEmailEvent eventType) then
      (db, WebhookResponse.received)
    else if (db.webhookEvents.find? (fun e => decide (e.svixId = svixId))).isSome then
      (db, WebhookResponse.received)
    else
      let db1 := { db with
        webhookEvents := db.webhookEvents ++ [⟨svixId, eventType, req.body.emailId⟩] }
      if ¬ strTruthy req.body.emailId then (db1, WebhookResponse.received)
      else
        let emailId := req.body.emailId.getD ""
        let lastEvent := eventToLastEvent eventType
        let errMsg : Option String :=
          if eventType = "email.bounced" then req.body.bounceMessage
          else if eventType = "email.failed" then req.body.failedReason
          else none
        let db2 := { db1 with
          recipients := db1.recipients.map (fun r =>
            if r.resendEmailId = some emailId then
              applyWebhookUpdate eventType lastEvent errMsg r
            else r) }
        (db2, WebhookResponse.received)

/-! ## Trigger surface: `GET /api/emails/cron` -/

/-- The environment bindings the cron route reads. -/
structure CronEnv where
  nodeEnv : String
  cronSecret : Option String
  deriving DecidableEq, Repr

/-- The cron route's distinct responses. -/
inductive CronResponse
  | unauthorizedNoSecret
  | unauthorized
  | ok (processed sent failed : Nat) (errors : List String)
  deriving DecidableEq, Repr

/-- The cron route `GET` handler: in production, require
`Authorization: Bearer <CRON_SECRET>` before running
`processScheduledEmails`; outside production, run the cycle without any
check.  Returns the resulting store and the response. -/
def cronGET (env : CronEnv) (authHeader : Option String)
    (oracle : DispatchOracle) (now : Nat) (db : DB) : DB × CronResponse :=
  let runCycle : DB × CronResponse :=
    let st := processScheduledEmails oracle now db
    (st.db, CronResponse.ok st.stats.processed st.stats.sent st.stats.failed
      st.stats.errors)
  if env.nodeEnv = "production" then
    if ¬ strTruthy env.cronSecret then (db, CronResponse.unauthorizedNoSecret)
    else if authHeader ≠ some ("Bearer " ++ env.cronSecret.getD "") then
      (db, CronResponse.unauthorized)
    else runCycle
  else runCycle

/-! ## Abstract single-campaign status trace

The cycle writes a campaign's `status` only through four conditional
`updateMany` shapes.  `EngineOp` names them; `applyOp` is their effect on
one campaign's stored status together with whether a row was affected.
Interleaving the operations of any number of concurrent cycle invocations
on one campaign yields a trace `List EngineOp`. -/

inductive EngineOp
  | claimOp                 -- SCHEDULED→SENDING, the conditional claim
  | emptyFinish             -- SENDING→SENT, the zero-recipient shortcut
  | finalize (ok : Bool)    -- SENDING→{SENT,FAILED}, the result finalize
  | failMark                -- {SENDING,SCHEDULED}→FAILED, the catch branch
  deriving DecidableEq, Repr

/-- The effect of one conditional update on the stored status, plus whether
the update affected the row (the guard matched). -/
def applyOp (s : EmailCampaignStatus) : EngineOp → EmailCampaignStatus × Bool
  | EngineOp.claimOp =>
      if s = EmailCampaignStatus.scheduled then (EmailCampaignStatus.sending, true)
      else (s, false)
  | EngineOp.emptyFinish =>
      if s = EmailCampaignStatus.sending then (EmailCampaignStatus.sent, true)
      else (s, false)
  | EngineOp.finalize ok =>
      if s = EmailCampaignStatus.sending then
        ((if ok then EmailCampaignStatus.sent else EmailCampaignStatus.failed), true)
      else (s, false)
  | EngineOp.failMark =>
      if s = EmailCampaignStatus.sending ∨ s = EmailCampaignStatus.scheduled then
        (EmailCampaignStatus.failed, true)
      else (s, false)

/-- The number of successful claims (SCHEDULED→SENDING transitions) along a
trace of conditional updates starting from status `s`. -/
def claimWins (s : EmailCampaignStatus) : List EngineOp → Nat
  | [] => 0
  | op :: tr =>
      let r := applyOp s op
      (if op = EngineOp.claimOp ∧ r.2 then 1 else 0) + claimWins r.1 tr

/-- Whether a `failMark` occurs strictly before the first `claimOp` of a
trace.  In a genuine interleaving of cycle invocations this is false: each
invocation's first operation on a campaign is its claim attempt. -/
def failBeforeClaim : List EngineOp → Bool
  | [] => false
  | EngineOp.claimOp :: _ => false
  | EngineOp.failMark :: _ => true
  | _ :: tr => failBeforeClaim tr

/-! ## Concrete fixtures used to evaluate the definitions -/

/-- A due SCHEDULED campaign. -/
def campaignW : EmailCampaign :=
  ⟨"c1", "Hello", "<p>Hi</p>", EmailCampaignStatus.scheduled, some 5, none⟩

/-- A PENDING recipient of `campaignW`. -/
def recipientW : EmailRecipient :=
  ⟨"r1", "c1", "a@example.com", EmailRecipientStatus.pending, none, none, none, none⟩

/-- A store with one due campaign and one pending recipient. -/
def dbW : DB := ⟨[campaignW], [recipientW], []⟩

/-- A cycle state over `dbW` with zeroed totals. -/
def stW : CycleState := ⟨dbW, ⟨0, 0, 0, []⟩⟩

/-- A dispatch that throws an `Error` with message `boom`. -/
def throwOracle : DispatchOracle := fun _ _ => Except.error (some "boom")

/-- A dispatch whose single outcome is a success with a provider id. -/
def okOracle : DispatchOracle :=
  fun _ _ => Except.ok [⟨"a@example.com", true, none, some "em1"⟩]

/-- A store whose only recipient was already SENT, with a provider id. -/
def sentRecipient : EmailRecipient :=
  ⟨"r1", "c1", "a@example.com", EmailRecipientStatus.sent, some 7, none,
   some "em1", none⟩

/-- A store holding `sentRecipient` and no event records. -/
def dbSent : DB := ⟨[], [sentRecipient], []⟩

/-- A verified bounce event referencing provider message `em1`. -/
def bouncedReq : WebhookRequest :=
  ⟨⟨some "evt1", some "111", some "sig"⟩, true,
   ⟨some "email.bounced", some "em1", some "bad address", none⟩⟩

/-- A request missing the `svix-id` header. -/
def noHeaderReq : WebhookRequest :=
  ⟨⟨none, some "111", some "sig"⟩, true,
   ⟨some "email.delivered", some "em1", none, none⟩⟩

/-- A request failing signature verification. -/
def badSigReq : WebhookRequest :=
  ⟨⟨some "evt2", some "111", some "sig"⟩, false,
   ⟨some "email.delivered", some "em1", none, none⟩⟩

/-- A verified request of an unrecognized event type. -/
def unrecognizedReq : WebhookRequest :=
  ⟨⟨some "evt3", some "111", some "sig"⟩, true,
   ⟨some "contact.created", some "em1", none, none⟩⟩

/-- The development environment of the cron route. -/
def devEnv : CronEnv := ⟨"development", some "s3cret"⟩

/-- The production environment of the cron route. -/
def prodEnv : CronEnv := ⟨"production", some "s3cret"⟩

/-- A store with one due campaign and no recipients. -/
def dbDue : DB := ⟨[campaignW], [], []⟩

/-- One bulk email. -/
def emailW : BulkEmail := ⟨"a@example.com", "Hello", "<p>Hi</p>"⟩

/-- A provider that answers every batch call with one item id. -/
def itemsProvider : Nat → ProviderResponse :=
  fun _ => ProviderResponse.items [some "em1"]

/-- A provider whose every batch call throws. -/
def thrownProvider : Nat → ProviderResponse :=
  fun _ => ProviderResponse.thrown (some "netdown")

/-- One successful dispatch outcome, used to exercise the cycle. -/
def resultsW : List SendBulkEmailResult :=
  [⟨"a@example.com", true, none, some "em1"⟩]

/-- A cycle state over `dbSent` with zeroed totals. -/
def stSent : CycleState := ⟨dbSent, ⟨0, 0, 0, []⟩⟩

/-- Dispatch options with an idempotency-key stem, as the interactive send
route passes (the campaign id). -/
def keyedOpts : SendBulkEmailsOptions :=
  { batchSize := some 10, delayBetweenBatches := some 1000,
    idempotencyKeyBase := some "c1" }

/-! ## Helper lemmas about the conditional-update primitives -/

lemma map_ite_id {α : Type} (Q : α → Prop) [DecidablePred Q] (f : α → α) :
    ∀ l : List α, (∀ a ∈ l, ¬ Q a) → l.map (fun a => if Q a then f a else a) = l
  | [], _ => rfl
  | a :: t, h => by
      have ha : ¬ Q a := h a (List.mem_cons_self a t)
      have ht := map_ite_id Q f t (fun b hb => h b (List.mem_cons_of_mem a hb))
      simp only [List.map_cons, if_neg ha, ht]

lemma find?_update {α : Type} (key : α → String) (P : α → Prop) [DecidablePred P]
    (f : α → α) (k : String) (hf : ∀ a, key (f a) = key a) :
    ∀ (l : List α) (c0 : α), l.find? (fun a => decide (key a = k)) = some c0 →
      (l.map (fun a => if key a = k ∧ P a then f a else a)).find?
        (fun a => decide (key a = k)) = some (if P c0 then f c0 else c0)
  | [], c0, h => by simp at h
  | a :: t, c0, h => by
      by_cases hk : key a = k
      · have h0 : a = c0 := by
          have := List.find?_cons_of_pos (p := fun a => decide (key a = k)) t
            (by simpa using hk)
          rw [this] at h
          exact Option.some.inj h
        subst h0
        simp only [List.map_cons]
        by_cases hp : P a
        · have hcond : key a = k ∧ P a := ⟨hk, hp⟩
          rw [if_pos hcond, if_pos hp]
          exact List.find?_cons_of_pos _ (by simpa using (hf a).trans hk)
        · have hcond : ¬ (key a = k ∧ P a) := fun hc => hp hc.2
          rw [if_neg hcond, if_neg hp]
          exact List.find?_cons_of_pos _ (by simpa using hk)
      · have h1 : t.find? (fun a => decide (key a = k)) = some c0 := by
          have := List.find?_cons_of_neg (p := fun a => decide (key a = k)) t
            (by simpa using hk)
          rwa [this] at h
        have hcond : ¬ (key a = k ∧ P a) := fun hc => hk hc.1
        simp only [List.map_cons, if_neg hcond]
        rw [List.find?_cons_of_neg _ (by simpa using hk)]
        exact find?_update key P f k hf t c0 h1

lemma countP_update_hit {α : Type} (key : α → String) (P : α → Prop)
    [DecidablePred P] (k : String) :
    ∀ (l : List α) (c0 : α), (l.map key).Nodup →
      l.find? (fun a => decide (key a = k)) = some c0 →
      l.countP (fun a => decide (key a = k ∧ P a)) = if P c0 then 1 else 0
  | [], c0, _, h => by simp at h
  | a :: t, c0, hnd, h => by
      rw [List.map_cons, List.nodup_cons] at hnd
      by_cases hk : key a = k
      · have h0 : a = c0 := by
          have := List.find?_cons_of_pos (p := fun a => decide (key a = k)) t
            (by simpa using hk)
          rw [this] at h
          exact Option.some.inj h
        subst h0
        have ht : t.countP (fun b => decide (key b = k ∧ P b)) = 0 := by
          refine List.countP_eq_zero.mpr (fun b hb => ?_)
          have hbk : key b ≠ key a := fun he => hnd.1 (he ▸ List.mem_map_of_mem key hb)
          simp only [decide_eq_true_eq, not_and]
          intro hbe
          exact absurd (hbe.trans hk.symm) hbk
        rw [List.countP_cons, ht]
        by_cases hp : P a
        · simp [hk, hp]
        · simp [hp]
      · have h1 : t.find? (fun a => decide (key a = k)) = some c0 := by
          have := List.find?_cons_of_neg (p := fun a => decide (key a = k)) t
            (by simpa using hk)
          rwa [this] at h
        rw [List.countP_cons]
        have : ¬ (key a = k ∧ P a) := fun hc => hk hc.1
        simp only [this, decide_eq_true_eq, if_neg this, Nat.add_zero]
        exact countP_update_hit key P k t c0 hnd.2 h1

lemma countP_update_none {α : Type} (key : α → String) (P : α → Prop)
    [DecidablePred P] (k : String) (l : List α)
    (h : l.find? (fun a => decide (key a = k)) = none) :
    l.countP (fun a => decide (key a = k ∧ P a)) = 0 := by
  refine List.countP_eq_zero.mpr (fun b hb => ?_)
  have := List.find?_eq_none.mp h b hb
  simp only [decide_eq_true_eq] at this ⊢
  exact fun hc => this hc.1

lemma map_update_of_countP_zero {α : Type} (key : α → String) (P : α → Prop)
    [DecidablePred P] (f : α → α) (k : String) (l : List α)
    (h : l.countP (fun a => decide (key a = k ∧ P a)) = 0) :
    l.map (fun a => if key a = k ∧ P a then f a else a) = l := by
  refine map_ite_id _ f l (fun a ha => ?_)
  have := List.countP_eq_zero.mp h a ha
  simpa using this

lemma mapkey_update {α : Type} (key : α → String) (P : α → Prop)
    [DecidablePred P] (f : α → α) (k : String) (hf : ∀ a, key (f a) = key a)
    (l : List α) :
    (l.map (fun a => if key a = k ∧ P a then f a else a)).map key = l.map key := by
  rw [List.map_map]
  refine List.map_congr_left (fun a _ => ?_)
  by_cases h : key a = k ∧ P a <;> simp [h, hf]

@[simp] lemma updateCampaignWhere_recipients (db : DB) (cid : String)
    (P : EmailCampaignStatus → Prop) [DecidablePred P]
    (f : EmailCampaign → EmailCampaign) :
    ((updateCampaignWhere db cid P f).1).recipients = db.recipients := rfl

@[simp] lemma updateCampaignWhere_webhookEvents (db : DB) (cid : String)
    (P : EmailCampaignStatus → Prop) [DecidablePred P]
    (f : EmailCampaign → EmailCampaign) :
    ((updateCampaignWhere db cid P f).1).webhookEvents = db.webhookEvents := rfl

@[simp] lemma updateRecipientWhere_campaigns (db : DB) (rid : String)
    (P : EmailRecipientStatus → Prop) [DecidablePred P]
    (f : EmailRecipient → EmailRecipient) :
    ((updateRecipientWhere db rid P f).1).campaigns = db.campaigns := rfl

lemma pendingRecipients_updateCampaign (db : DB) (cid c2 : String)
    (P : EmailCampaignStatus → Prop) [DecidablePred P]
    (f : EmailCampaign → EmailCampaign) :
    pendingRecipients (updateCampaignWhere db cid P f).1 c2 =
      pendingRecipients db c2 := rfl

lemma db_eta (db : DB) : { db with campaigns := db.campaigns } = db := by
  cases db; rfl

/-! ## Trace lemmas for the conditional claim -/

lemma applyOp_ne_scheduled (s : EmailCampaignStatus) (op : EngineOp)
    (h : s ≠ EmailCampaignStatus.scheduled) :
    (applyOp s op).1 ≠ EmailCampaignStatus.scheduled := by
  cases op with
  | claimOp => cases s <;> simp_all [applyOp]
  | emptyFinish => cases s <;> simp_all [applyOp]
  | finalize ok => cases ok <;> cases s <;> simp_all [applyOp]
  | failMark => cases s <;> simp_all [applyOp]

lemma claimWins_of_ne (tr : List EngineOp) :
    ∀ s : EmailCampaignStatus, s ≠ EmailCampaignStatus.scheduled →
      claimWins s tr = 0 := by
  induction tr with
  | nil => intro s _; rfl
  | cons op tr ih =>
      intro s hs
      have h1 := applyOp_ne_scheduled s op hs
      have h2 : ¬ (op = EngineOp.claimOp ∧ (applyOp s op).2) := by
        rintro ⟨rfl, hw⟩
        cases s <;> simp_all [applyOp]
      simp only [claimWins, if_neg h2, Nat.zero_add]
      exact ih _ h1

lemma claimWins_le_one (tr : List EngineOp) :
    claimWins EmailCampaignStatus.scheduled tr ≤ 1 := by
  induction tr with
  | nil => exact Nat.zero_le 1
  | cons op tr ih =>
      cases op with
      | claimOp =>
          simp only [claimWins, applyOp, if_pos rfl]
          have := claimWins_of_ne tr EmailCampaignStatus.sending (by simp)
          simp [this]
      | emptyFinish => simpa [claimWins, applyOp] using ih
      | finalize ok => simpa [claimWins, applyOp] using ih
      | failMark =>
          simp only [claimWins, applyOp]
          have := claimWins_of_ne tr EmailCampaignStatus.failed (by simp)
          simp [this]

lemma claimWins_eq_one (tr : List EngineOp)
    (hmem : EngineOp.claimOp ∈ tr) (hfb : failBeforeClaim tr = false) :
    claimWins EmailCampaignStatus.scheduled tr = 1 := by
  induction tr with
  | nil => simp at hmem
  | cons op tr ih =>
      cases op with
      | claimOp =>
          simp only [claimWins, applyOp, if_pos rfl]
          have := claimWins_of_ne tr EmailCampaignStatus.sending (by simp)
          simp [this]
      | emptyFinish =>
          have hmem2 : EngineOp.claimOp ∈ tr := by
            rcases List.mem_cons.mp hmem with h | h
            · exact absurd h.symm (by simp)
            · exact h
          have hfb2 : failBeforeClaim tr = false := by simpa [failBeforeClaim] using hfb
          simpa [claimWins, applyOp] using ih hmem2 hfb2
      | finalize ok =>
          have hmem2 : EngineOp.claimOp ∈ tr := by
            rcases List.mem_cons.mp hmem with h | h
            · exact absurd h.symm (by simp)
            · exact h
          have hfb2 : failBeforeClaim tr = false := by simpa [failBeforeClaim] using hfb
          simpa [claimWins, applyOp] using ih hmem2 hfb2
      | failMark => simp [failBeforeClaim] at hfb

/-! ## Lemmas about the cycle's store operations -/

lemma updateCampaignWhere_found (db : DB) (cid : String)
    (P : EmailCampaignStatus → Prop) [DecidablePred P]
    (f : EmailCampaign → EmailCampaign) (c0 : EmailCampaign)
    (hf : ∀ c, (f c).id = c.id)
    (hnd : (db.campaigns.map (fun c => c.id)).Nodup)
    (hfind : findCampaign db cid = some c0) :
    (updateCampaignWhere db cid P f).2 = (if P c0.status then 1 else 0) ∧
    findCampaign (updateCampaignWhere db cid P f).1 cid =
      some (if P c0.status then f c0 else c0) ∧
    (((updateCampaignWhere db cid P f).1).campaigns.map (fun c => c.id)).Nodup := by
  have hfind2 : db.campaigns.find?
      (fun a => decide ((fun c : EmailCampaign => c.id) a = cid)) = some c0 := hfind
  refine ⟨?_, ?_, ?_⟩
  · exact countP_update_hit (fun c : EmailCampaign => c.id) (fun c => P c.status)
      cid db.campaigns c0 hnd hfind2
  · exact find?_update (fun c : EmailCampaign => c.id) (fun c => P c.status) f
      cid hf db.campaigns c0 hfind2
  · have h3 := mapkey_update (fun c : EmailCampaign => c.id)
      (fun c => P c.status) f cid hf db.campaigns
    have h4 : ((updateCampaignWhere db cid P f).1).campaigns.map (fun c => c.id) =
        db.campaigns.map (fun c => c.id) := h3
    rw [h4]
    exact hnd

lemma findCampaign_congr (db1 db2 : DB) (cid : String)
    (h : db1.campaigns = db2.campaigns) :
    findCampaign db1 cid = findCampaign db2 cid := by
  unfold findCampaign
  rw [h]

lemma updateRecipientWhere_nodup (db : DB) (rid : String)
    (P : EmailRecipientStatus → Prop) [DecidablePred P]
    (g : EmailRecipient → EmailRecipient) (hg : ∀ a, (g a).id = a.id)
    (hnd : (db.recipients.map (fun r => r.id)).Nodup) :
    (((updateRecipientWhere db rid P g).1).recipients.map (fun r => r.id)).Nodup := by
  have h3 := mapkey_update (fun r : EmailRecipient => r.id)
    (fun r => P r.status) g rid hg db.recipients
  have h4 : ((updateRecipientWhere db rid P g).1).recipients.map (fun r => r.id) =
      db.recipients.map (fun r => r.id) := h3
  rw [h4]
  exact hnd

lemma updateRecipientWhere_mem (db : DB) (rid : String)
    (P : EmailRecipientStatus → Prop) [DecidablePred P]
    (g : EmailRecipient → EmailRecipient) (x : EmailRecipient)
    (hx : x ∈ db.recipients) (hne : x.id ≠ rid) :
    x ∈ ((updateRecipientWhere db rid P g).1).recipients := by
  refine List.mem_map.mpr ⟨x, hx, ?_⟩
  exact if_neg (fun hc => hne hc.1)

lemma updateRecipientWhere_pos (db : DB) (rid : String)
    (g : EmailRecipient → EmailRecipient) (r : EmailRecipient)
    (hr : r ∈ db.recipients) (hid : r.id = rid)
    (hst : r.status = EmailRecipientStatus.pending) :
    0 < (updateRecipientWhere db rid
      (fun s => s = EmailRecipientStatus.pending) g).2 := by
  refine List.countP_pos_iff.mpr ⟨r, hr, ?_⟩
  simp [hid, hst]

lemma reconcileLoop_campaigns (now : Nat) :
    ∀ (rs : List EmailRecipient) (results : List SendBulkEmailResult) (db : DB),
      ((reconcileLoop now db rs results).1).campaigns = db.campaigns
  | [], _, _ => rfl
  | r :: rs, results, db => by
      by_cases h : resultSuccess results.head? = true
      · simp only [reconcileLoop, if_pos h]
        rw [reconcileLoop_campaigns now rs (results.drop 1) _]
        simp
      · simp only [reconcileLoop, if_neg h]
        rw [reconcileLoop_campaigns now rs (results.drop 1) _]
        simp

lemma reconcileLoop_counts (now : Nat) :
    ∀ (rs : List EmailRecipient) (results : List SendBulkEmailResult) (db : DB),
      (db.recipients.map (fun r => r.id)).Nodup →
      (rs.map (fun r => r.id)).Nodup →
      (∀ r ∈ rs, r ∈ db.recipients ∧ r.status = EmailRecipientStatus.pending) →
      (reconcileLoop now db rs results).2.1 = succOutcomes rs results ∧
      (reconcileLoop now db rs results).2.2 = failOutcomes rs results
  | [], _, _, _, _, _ => ⟨rfl, rfl⟩
  | r :: rs, results, db, hnd, hndrs, hmem => by
      have hr := hmem r (List.mem_cons_self r rs)
      rw [List.map_cons, List.nodup_cons] at hndrs
      have hmemtail : ∀ (P : EmailRecipientStatus → Prop) (inst : DecidablePred P)
          (g : EmailRecipient → EmailRecipient), ∀ x ∈ rs,
          x ∈ ((@updateRecipientWhere db r.id P inst g).1).recipients ∧
            x.status = EmailRecipientStatus.pending := by
        intro P inst g x hx
        have hxid : x.id ≠ r.id := by
          intro he
          exact hndrs.1 (he ▸ List.mem_map_of_mem (fun r => r.id) hx)
        exact ⟨updateRecipientWhere_mem db r.id P g x
          (hmem x (List.mem_cons_of_mem r hx)).1 hxid,
          (hmem x (List.mem_cons_of_mem r hx)).2⟩
      by_cases h : resultSuccess results.head? = true
      · have hpos := updateRecipientWhere_pos db r.id (markSent now) r hr.1 rfl hr.2
        have hnd2 := updateRecipientWhere_nodup db r.id
          (fun s => s = EmailRecipientStatus.pending) (markSent now)
          (fun a => rfl) hnd
        have ih := reconcileLoop_counts now rs (results.drop 1)
          (updateRecipientWhere db r.id
            (fun s => s = EmailRecipientStatus.pending) (markSent now)).1
          hnd2 hndrs.2 (hmemtail _ _ _)
        simp only [reconcileLoop, if_pos h]
        refine ⟨?_, ?_⟩
        · rw [ih.1]
          simp [succOutcomes, h, hpos]
        · rw [ih.2]
          simp [failOutcomes, h]
      · have hnd2 := updateRecipientWhere_nodup db r.id
          (fun s => s = EmailRecipientStatus.pending)
          (markFailedRecipient (failureMessage results.head?))
          (fun a => rfl) hnd
        have ih := reconcileLoop_counts now rs (results.drop 1)
          (updateRecipientWhere db r.id
            (fun s => s = EmailRecipientStatus.pending)
            (markFailedRecipient (failureMessage results.head?))).1
          hnd2 hndrs.2 (hmemtail _ _ _)
        simp only [reconcileLoop, if_neg h]
        refine ⟨?_, ?_⟩
        · rw [ih.1]
          simp [succOutcomes, h]
        · rw [ih.2]
          simp [failOutcomes, h]

lemma succ_add_fail :
    ∀ (rs : List EmailRecipient) (results : List SendBulkEmailResult),
      succOutcomes rs results + failOutcomes rs results = rs.length
  | [], _ => rfl
  | _ :: rs, results => by
      have ih := succ_add_fail rs (results.drop 1)
      rw [List.drop_one] at ih
      by_cases h : resultSuccess results.head? = true <;>
        simp [succOutcomes, failOutcomes, h] <;> omega

/-! ## Claim theorems -/

/-- C1: the claim cycle moves a campaign from SCHEDULED to SENDING only
through the single conditional update guarded on the stored status still
being SCHEDULED.  Along any interleaved trace of the cycle's conditional
status updates starting from SCHEDULED, at most one claim succeeds; when
the trace contains a claim attempt and no catch-branch FAILED write
precedes the first claim (as in any genuine interleaving of concurrent
cycles, each of which claims first), exactly one claim succeeds, so the
campaign enters SENDING exactly once.  A candidate whose conditional claim
affects zero rows is skipped silently: the cycle state — store, totals and
error list — is returned unchanged. -/
theorem claim_cycle_at_most_once :
    (∀ tr : List EngineOp, claimWins EmailCampaignStatus.scheduled tr ≤ 1) ∧
    (∀ tr : List EngineOp, EngineOp.claimOp ∈ tr → failBeforeClaim tr = false →
      claimWins EmailCampaignStatus.scheduled tr = 1) ∧
    (∀ (oracle : DispatchOracle) (now : Nat) (st : CycleState)
      (cand : EmailCampaign × List EmailRecipient),
      st.db.campaigns.countP
        (fun x => decide (x.id = cand.1.id ∧
          x.status = EmailCampaignStatus.scheduled)) = 0 →
      processOne oracle now st cand = st) := by
  refine ⟨claimWins_le_one, claimWins_eq_one, ?_⟩
  intro oracle now st cand h
  have hmap : st.db.campaigns.map
      (fun a => if a.id = cand.1.id ∧ a.status = EmailCampaignStatus.scheduled
        then toSending a else a) = st.db.campaigns :=
    map_update_of_countP_zero (fun c : EmailCampaign => c.id)
      (fun c => c.status = EmailCampaignStatus.scheduled) toSending cand.1.id
      st.db.campaigns h
  simp only [processOne, updateCampaignWhere, updateWhere]
  rw [h]
  simp [hmap]

/-- Witness for the C1 theorem: two concurrent claims then a failure mark
yield exactly one SCHEDULED→SENDING transition, and a candidate whose
stored status is already SENDING is skipped with the cycle state
unchanged. -/
theorem claim_cycle_at_most_once_witness :
    claimWins EmailCampaignStatus.scheduled
      [EngineOp.claimOp, EngineOp.claimOp, EngineOp.failMark] = 1 ∧
    processOne (fun _ _ => Except.ok []) 0
      ⟨⟨[⟨"c1", "subj", "body", EmailCampaignStatus.sending, some 0, none⟩], [], []⟩,
        ⟨0, 0, 0, []⟩⟩
      (⟨"c1", "subj", "body", EmailCampaignStatus.sending, some 0, none⟩, []) =
      ⟨⟨[⟨"c1", "subj", "body", EmailCampaignStatus.sending, some 0, none⟩], [], []⟩,
        ⟨0, 0, 0, []⟩⟩ :=
  ⟨claim_cycle_at_most_once.2.1 _ (by decide) (by decide),
   claim_cycle_at_most_once.2.2 (fun _ _ => Except.ok []) 0 _ _ (by decide)⟩

end EmailCron

namespace EmailCron

/-- C6: an exception thrown while processing one campaign is caught per
campaign: the campaign is conditionally forced {SCHEDULED,SENDING}→FAILED,
the exception's message is appended to the cycle's error list (as
`Campaign <id>: <message>`), the candidate counts as processed, and the
loop continues with every later candidate of the same cycle. -/
theorem exception_isolation
    (oracle : DispatchOracle) (now : Nat) (st : CycleState)
    (c : EmailCampaign) (pend : List EmailRecipient) (c0 : EmailCampaign)
    (err : Option String) (rest : List (EmailCampaign × List EmailRecipient))
    (hnd : (st.db.campaigns.map (fun x => x.id)).Nodup)
    (hfind : findCampaign st.db c.id = some c0)
    (hs : c0.status = EmailCampaignStatus.scheduled)
    (hpend : pend ≠ [])
    (horacle : oracle c.id ((pendingRecipients st.db c.id).map
      (fun r => ⟨r.recipientEmail, c0.subject, c0.body⟩)) = Except.error err) :
    (processOne oracle now st (c, pend)).stats.processed = st.stats.processed + 1 ∧
    (processOne oracle now st (c, pend)).stats.errors =
      st.stats.errors ++ ["Campaign " ++ c.id ++ ": " ++ err.getD "Unknown error"] ∧
    findCampaign (processOne oracle now st (c, pend)).db c.id =
      some { c0 with status := EmailCampaignStatus.failed } ∧
    cycleLoop oracle now st ((c, pend) :: rest) =
      cycleLoop oracle now (processOne oracle now st (c, pend)) rest := by
  have hcl := updateCampaignWhere_found st.db c.id
    (fun s => s = EmailCampaignStatus.scheduled) toSending c0 (fun x => rfl)
    hnd hfind
  have h2 : (updateCampaignWhere st.db c.id
      (fun s => s = EmailCampaignStatus.scheduled) toSending).2 = 1 := by
    rw [hcl.1, if_pos hs]
  have hfind2 : findCampaign (updateCampaignWhere st.db c.id
      (fun s => s = EmailCampaignStatus.scheduled) toSending).1 c.id =
      some (toSending c0) := by
    rw [hcl.2.1, if_pos hs]
  have hlen : ¬ (pend.length = 0) := by
    simpa [List.length_eq_zero] using hpend
  have hfl := updateCampaignWhere_found (updateCampaignWhere st.db c.id
      (fun s => s = EmailCampaignStatus.scheduled) toSending).1 c.id
    (fun s => s = EmailCampaignStatus.sending ∨ s = EmailCampaignStatus.scheduled)
    toFailedCampaign (toSending c0) (fun x => rfl) hcl.2.2 hfind2
  have hffind : findCampaign (updateCampaignWhere (updateCampaignWhere st.db c.id
      (fun s => s = EmailCampaignStatus.scheduled) toSending).1 c.id
      (fun s => s = EmailCampaignStatus.sending ∨ s = EmailCampaignStatus.scheduled)
      toFailedCampaign).1 c.id =
      some { c0 with status := EmailCampaignStatus.failed } := by
    rw [hfl.2.1]
    simp [toSending, toFailedCampaign]
  have hP : processOne oracle now st (c, pend) =
      ⟨(updateCampaignWhere (updateCampaignWhere st.db c.id
          (fun s => s = EmailCampaignStatus.scheduled) toSending).1 c.id
          (fun s => s = EmailCampaignStatus.sending ∨ s = EmailCampaignStatus.scheduled)
          toFailedCampaign).1,
        { st.stats with
            processed := st.stats.processed + 1,
            errors := st.stats.errors ++
              ["Campaign " ++ c.id ++ ": " ++ err.getD "Unknown error"] }⟩ := by
    simp only [processOne, h2, pendingRecipients_updateCampaign, hfind2, toSending,
      horacle]
    simp [hlen, toSending]
  refine ⟨?_, ?_, ?_, rfl⟩
  · rw [hP]
  · rw [hP]
  · rw [hP]
    exact hffind

end EmailCron

namespace EmailCron

/-- Witness for the C6 theorem: a thrown dispatch for the due campaign
`c1` marks it FAILED, records `Campaign c1: boom`, and the loop equation
continues with the remaining candidates. -/
theorem exception_isolation_witness :
    (processOne throwOracle 9 stW (campaignW, [recipientW])).stats.processed =
      stW.stats.processed + 1 ∧
    (processOne throwOracle 9 stW (campaignW, [recipientW])).stats.errors =
      stW.stats.errors ++
        ["Campaign " ++ campaignW.id ++ ": " ++ (some "boom").getD "Unknown error"] ∧
    findCampaign (processOne throwOracle 9 stW (campaignW, [recipientW])).db
        campaignW.id =
      some { campaignW with status := EmailCampaignStatus.failed } ∧
    cycleLoop throwOracle 9 stW ((campaignW, [recipientW]) :: []) =
      cycleLoop throwOracle 9 (processOne throwOracle 9 stW (campaignW, [recipientW]))
        [] :=
  exception_isolation throwOracle 9 stW campaignW [recipientW] campaignW
    (some "boom") [] (by decide) (by decide) rfl (by decide) rfl

end EmailCron

namespace EmailCron

/-- C3: for a claimed campaign whose reconciled recipient list is
non-empty, the finalize step sets SENT when at least one reconciled
outcome succeeded and FAILED when none did; `sentAt` is written exactly
on SENT (otherwise it keeps its prior value); the cycle's totals grow by
the success and failure counts; and the finalize update is guarded on the
current status being SENDING — against a store where the campaign is not
SENDING it writes nothing. -/
theorem campaign_final_status
    (oracle : DispatchOracle) (now : Nat) (st : CycleState)
    (c : EmailCampaign) (pend : List EmailRecipient) (c0 : EmailCampaign)
    (results : List SendBulkEmailResult)
    (hnd : (st.db.campaigns.map (fun x => x.id)).Nodup)
    (hndr : (st.db.recipients.map (fun x => x.id)).Nodup)
    (hfind : findCampaign st.db c.id = some c0)
    (hs : c0.status = EmailCampaignStatus.scheduled)
    (hpend : pend ≠ [])
    (hrs : pendingRecipients st.db c.id ≠ [])
    (horacle : oracle c.id ((pendingRecipients st.db c.id).map
      (fun r => ⟨r.recipientEmail, c0.subject, c0.body⟩)) = Except.ok results) :
    findCampaign (processOne oracle now st (c, pend)).db c.id =
      (if 0 < succOutcomes (pendingRecipients st.db c.id) results then
        some { c0 with status := EmailCampaignStatus.sent, sentAt := some now }
      else
        some { c0 with status := EmailCampaignStatus.failed }) ∧
    (processOne oracle now st (c, pend)).stats.sent =
      st.stats.sent + succOutcomes (pendingRecipients st.db c.id) results ∧
    (processOne oracle now st (c, pend)).stats.failed =
      st.stats.failed + failOutcomes (pendingRecipients st.db c.id) results ∧
    (∀ (db2 : DB) (f2 : EmailCampaign → EmailCampaign),
      db2.campaigns.countP (fun x => decide (x.id = c.id ∧
        x.status = EmailCampaignStatus.sending)) = 0 →
      (updateCampaignWhere db2 c.id
        (fun s => s = EmailCampaignStatus.sending) f2).1 = db2) := by
  have hcl := updateCampaignWhere_found st.db c.id
    (fun s => s = EmailCampaignStatus.scheduled) toSending c0 (fun x => rfl)
    hnd hfind
  have h2 : (updateCampaignWhere st.db c.id
      (fun s => s = EmailCampaignStatus.scheduled) toSending).2 = 1 := by
    rw [hcl.1, if_pos hs]
  have hfind2 : findCampaign (updateCampaignWhere st.db c.id
      (fun s => s = EmailCampaignStatus.scheduled) toSending).1 c.id =
      some (toSending c0) := by
    rw [hcl.2.1, if_pos hs]
  have hlen : ¬ (pend.length = 0) := by
    simpa [List.length_eq_zero] using hpend
  set db1 := (updateCampaignWhere st.db c.id
    (fun s => s = EmailCampaignStatus.scheduled) toSending).1 with hdb1
  set rs := pendingRecipients st.db c.id with hrsdef
  set rl := reconcileLoop now db1 rs results with hrl
  -- the reconcile loop's counts are the aligned outcome counts
  have hrecs : db1.recipients = st.db.recipients := rfl
  have hndr1 : (db1.recipients.map (fun x => x.id)).Nodup := hndr
  have hsub : rs.Sublist st.db.recipients := List.filter_sublist _
  have hndrs : (rs.map (fun x => x.id)).Nodup :=
    List.Nodup.sublist (hsub.map _) hndr
  have hmemrs : ∀ r ∈ rs, r ∈ db1.recipients ∧
      r.status = EmailRecipientStatus.pending := by
    intro r hr
    have h3 := List.mem_filter.mp hr
    have h4 : r.status = EmailRecipientStatus.pending := by
      have := h3.2
      simp only [decide_eq_true_eq] at this
      exact this.2
    exact ⟨by rw [hrecs]; exact h3.1, h4⟩
  have hcounts := reconcileLoop_counts now rs results db1 hndr1 hndrs hmemrs
  have hrlcamp : rl.1.campaigns = db1.campaigns := reconcileLoop_campaigns now rs results db1
  have hfind3 : findCampaign rl.1 c.id = some (toSending c0) :=
    (findCampaign_congr rl.1 db1 c.id hrlcamp).trans hfind2
  have hnd3 : (rl.1.campaigns.map (fun x => x.id)).Nodup := by
    rw [hrlcamp]
    exact hcl.2.2
  set fs := (if rl.2.2 = 0 then EmailCampaignStatus.sent
    else if 0 < rl.2.1 then EmailCampaignStatus.sent
    else EmailCampaignStatus.failed) with hfs
  have hfid : ∀ x, (finalizeData fs now x).id = x.id := by
    intro x
    unfold finalizeData
    split <;> rfl
  have hff := updateCampaignWhere_found rl.1 c.id
    (fun s => s = EmailCampaignStatus.sending) (finalizeData fs now)
    (toSending c0) hfid hnd3 hfind3
  have hP : processOne oracle now st (c, pend) =
      ⟨(updateCampaignWhere rl.1 c.id
          (fun s => s = EmailCampaignStatus.sending) (finalizeData fs now)).1,
        { processed := st.stats.processed + 1,
          sent := st.stats.sent + rl.2.1,
          failed := st.stats.failed + rl.2.2,
          errors := st.stats.errors }⟩ := by
    rw [hfs, hrl, hrsdef, hdb1]
    simp only [processOne, h2, pendingRecipients_updateCampaign, hfind2, toSending,
      horacle]
    simp [hlen, toSending]
  have hfinal : finalizeData fs now (toSending c0) =
      (if 0 < succOutcomes rs results then
        { c0 with status := EmailCampaignStatus.sent, sentAt := some now }
      else { c0 with status := EmailCampaignStatus.failed }) := by
    by_cases hpos : 0 < succOutcomes rs results
    · have hfssent : fs = EmailCampaignStatus.sent := by
        rw [hfs, hcounts.1]
        by_cases hz : rl.2.2 = 0 <;> simp [hz, hpos]
      rw [hfssent, if_pos hpos]
      simp [finalizeData, toSending]
    · have hzero : succOutcomes rs results = 0 := Nat.eq_zero_of_not_pos hpos
      have hlenrs : rs.length ≠ 0 := by
        simpa [List.length_eq_zero, hrsdef] using hrs
      have hfail : rl.2.2 ≠ 0 := by
        rw [hcounts.2]
        have := succ_add_fail rs results
        omega
      have hfsfailed : fs = EmailCampaignStatus.failed := by
        rw [hfs]
        rw [if_neg hfail, hcounts.1, hzero]
        simp
      rw [hfsfailed, if_neg hpos]
      simp [finalizeData, toSending]
  refine ⟨?_, ?_, ?_, ?_⟩
  · rw [hP]
    show findCampaign (updateCampaignWhere rl.1 c.id
      (fun s => s = EmailCampaignStatus.sending) (finalizeData fs now)).1 c.id = _
    rw [hff.2.1,
      if_pos (show (toSending c0).status = EmailCampaignStatus.sending from rfl),
      hfinal]
    by_cases hpos : 0 < succOutcomes rs results <;> simp [hpos]
  · rw [hP, hcounts.1]
  · rw [hP, hcounts.2]
  · intro db2 f2 h0
    have hmap2 : db2.campaigns.map
        (fun a => if a.id = c.id ∧ a.status = EmailCampaignStatus.sending
          then f2 a else a) = db2.campaigns :=
      map_update_of_countP_zero (fun x : EmailCampaign => x.id)
        (fun x => x.status = EmailCampaignStatus.sending) f2 c.id
        db2.campaigns h0
    simp [updateCampaignWhere, updateWhere, hmap2]

end EmailCron

namespace EmailCron

/-- Witness for the C3 theorem: with one pending recipient and one
successful outcome, campaign `c1` is finalized as SENT with `sentAt`
set, and the totals grow by one success and zero failures. -/
theorem campaign_final_status_witness :
    findCampaign (processOne okOracle 9 stW (campaignW, [recipientW])).db
        campaignW.id =
      (if 0 < succOutcomes (pendingRecipients stW.db campaignW.id) resultsW then
        some { campaignW with status := EmailCampaignStatus.sent, sentAt := some 9 }
      else
        some { campaignW with status := EmailCampaignStatus.failed }) ∧
    (processOne okOracle 9 stW (campaignW, [recipientW])).stats.sent =
      stW.stats.sent + succOutcomes (pendingRecipients stW.db campaignW.id) resultsW ∧
    (processOne okOracle 9 stW (campaignW, [recipientW])).stats.failed =
      stW.stats.failed + failOutcomes (pendingRecipients stW.db campaignW.id) resultsW :=
  let h := campaign_final_status okOracle 9 stW campaignW [recipientW] campaignW
    resultsW (by decide) (by decide) (by decide) rfl (by decide) (by decide) rfl
  ⟨h.1, h.2.1, h.2.2.1⟩

end EmailCron

namespace EmailCron

lemma reconcileLoop_get_nonpending (now : Nat) :
    ∀ (rs : List EmailRecipient) (results : List SendBulkEmailResult) (db : DB)
      (i : Nat) (r : EmailRecipient),
      db.recipients[i]? = some r → r.status ≠ EmailRecipientStatus.pending →
      ((reconcileLoop now db rs results).1).recipients[i]? = some r
  | [], _, _, _, _, hget, _ => hget
  | rr :: rs, results, db, i, r, hget, hnp => by
      have hstep : ∀ (g : EmailRecipient → EmailRecipient)
          (P : EmailRecipientStatus → Prop) (inst : DecidablePred P)
          (hPr : ¬ P r.status),
          ((@updateRecipientWhere db rr.id P inst g).1).recipients[i]? = some r := by
        intro g P inst hPr
        have h5 : ((@updateRecipientWhere db rr.id P inst g).1).recipients[i]? =
            (db.recipients[i]?).map
              (fun a => if a.id = rr.id ∧ P a.status then g a else a) :=
          List.getElem?_map _ _ _
        rw [h5, hget]
        show some (if r.id = rr.id ∧ P r.status then g r else r) = some r
        rw [if_neg (fun hc => hPr hc.2)]
      by_cases h : resultSuccess results.head? = true
      · simp only [reconcileLoop, if_pos h]
        exact reconcileLoop_get_nonpending now rs (results.drop 1) _ i r
          (hstep (markSent now) _ _ (fun he => hnp he)) hnp
      · simp only [reconcileLoop, if_neg h]
        exact reconcileLoop_get_nonpending now rs (results.drop 1) _ i r
          (hstep (markFailedRecipient (failureMessage results.head?)) _ _
            (fun he => hnp he)) hnp

end EmailCron

namespace EmailCron

lemma strTruthy_some (o : Option String) (h : strTruthy o = true) :
    o = some (o.getD "") := by
  cases o <;> simp_all [strTruthy]

/-- C2 counterexample: the delivery-event reconciliation overwrites a SENT
recipient.  For the store whose only recipient is SENT with provider
message id `em1`, handling a verified `email.bounced` event for `em1`
leaves that recipient FAILED: an operation of the core changed the status
of a recipient that was already SENT, contradicting the claim. -/
theorem recipient_status_webhook_overwrite :
    dbSent.recipients.map (fun r => r.status) = [EmailRecipientStatus.sent] ∧
    ((webhookPOST true dbSent bouncedReq).1).recipients.map (fun r => r.status) =
      [EmailRecipientStatus.failed] := by
  decide

/-- C2 amended: the dispatch reconciliation step never changes a
non-PENDING recipient row (`processOne` returns every such row unchanged,
at its position); the delivery-event reconciliation, whose recipient
update is keyed only on `resendEmailId`, changes a recipient's status only
to FAILED and only for the failure-class event types (bounced, failed) —
so it may overwrite SENT with FAILED, but makes no other status change. -/
theorem recipient_terminal_amended :
    (∀ (oracle : DispatchOracle) (now : Nat) (st : CycleState)
      (cand : EmailCampaign × List EmailRecipient) (i : Nat) (r : EmailRecipient),
      st.db.recipients[i]? = some r →
      r.status ≠ EmailRecipientStatus.pending →
      (processOne oracle now st cand).db.recipients[i]? = some r) ∧
    (∀ (sc : Bool) (db : DB) (req : WebhookRequest) (i : Nat)
      (r r2 : EmailRecipient),
      db.recipients[i]? = some r →
      ((webhookPOST sc db req).1).recipients[i]? = some r2 →
      r2.status = r.status ∨ (r2.status = EmailRecipientStatus.failed ∧
        shouldSetFailedStatus (req.body.type.getD "") = true)) := by
  constructor
  · intro oracle now st cand i r hget hnp
    simp only [processOne]
    split
    · exact hget
    · split
      · exact hget
      · split
        · exact hget
        · split
          · exact hget
          · split
            · exact hget
            · exact reconcileLoop_get_nonpending now _ _ _ i r hget hnp
  · intro sc db req i r r2 hget h2
    simp only [webhookPOST] at h2
    split at h2
    · have h3 : db.recipients[i]? = some r2 := h2
      rw [hget] at h3
      exact Or.inl (by rw [← Option.some.inj h3])
    · split at h2
      · have h3 : db.recipients[i]? = some r2 := h2
        rw [hget] at h3
        exact Or.inl (by rw [← Option.some.inj h3])
      · split at h2
        · have h3 : db.recipients[i]? = some r2 := h2
          rw [hget] at h3
          exact Or.inl (by rw [← Option.some.inj h3])
        · split at h2
          · have h3 : db.recipients[i]? = some r2 := h2
            rw [hget] at h3
            exact Or.inl (by rw [← Option.some.inj h3])
          · split at h2
            · have h3 : db.recipients[i]? = some r2 := h2
              rw [hget] at h3
              exact Or.inl (by rw [← Option.some.inj h3])
            · rename_i htype hdupe
              split at h2
              · have h3 : db.recipients[i]? = some r2 := h2
                rw [hget] at h3
                exact Or.inl (by rw [← Option.some.inj h3])
              · have h4 : (db.recipients.map (fun r =>
                    if r.resendEmailId = some (req.body.emailId.getD "") then
                      applyWebhookUpdate (req.body.type.getD "")
                        (eventToLastEvent (req.body.type.getD ""))
                        (if req.body.type.getD "" = "email.bounced" then
                          req.body.bounceMessage
                        else if req.body.type.getD "" = "email.failed" then
                          req.body.failedReason
                        else none) r
                    else r))[i]? = some r2 := h2
                rw [List.getElem?_map, hget] at h4
                have hr2 : r2 = _ := (Option.some.inj h4).symm
                have hr2b : r2 = (if r.resendEmailId = some (req.body.emailId.getD "") then
                    applyWebhookUpdate (req.body.type.getD "")
                      (eventToLastEvent (req.body.type.getD ""))
                      (if req.body.type.getD "" = "email.bounced" then
                        req.body.bounceMessage
                      else if req.body.type.getD "" = "email.failed" then
                        req.body.failedReason
                      else none) r
                  else r) := hr2
                by_cases hmatch : r.resendEmailId = some (req.body.emailId.getD "")
                · rw [if_pos hmatch] at hr2b
                  have htype2 : strTruthy req.body.type = true ∧
                      isEmailEvent (req.body.type.getD "") = true := by
                    by_contra hcon
                    exact htype (by
                      intro hand
                      exact hcon ⟨hand.1, hand.2⟩)
                  by_cases hfail : shouldSetFailedStatus (req.body.type.getD "") = true
                  · refine Or.inr ⟨?_, hfail⟩
                    rw [hr2b]
                    unfold applyWebhookUpdate
                    rw [if_pos hfail]
                    repeat' split
                    all_goals rfl
                  · refine Or.inl ?_
                    rw [hr2b]
                    unfold applyWebhookUpdate
                    rw [if_neg hfail]
                · rw [if_neg hmatch] at hr2b
                  rw [hr2b]
                  exact Or.inl rfl

end EmailCron

namespace EmailCron

/-- Witness for the amended C2 theorem: a SENT recipient is returned
unchanged by the cycle's per-campaign step, and the webhook's rewrite of
that recipient on a bounce event only moves it to FAILED, the bounce being
a failure-class event. -/
theorem recipient_terminal_amended_witness :
    (processOne okOracle 9 stSent (campaignW, [])).db.recipients[0]? =
      some sentRecipient ∧
    ((⟨"r1", "c1", "a@example.com", EmailRecipientStatus.failed, some 7,
        some "bad address", some "em1", some "bounced"⟩ : EmailRecipient).status =
        sentRecipient.status ∨
      ((⟨"r1", "c1", "a@example.com", EmailRecipientStatus.failed, some 7,
          some "bad address", some "em1", some "bounced"⟩ : EmailRecipient).status =
          EmailRecipientStatus.failed ∧
        shouldSetFailedStatus (bouncedReq.body.type.getD "") = true)) :=
  ⟨recipient_terminal_amended.1 okOracle 9 stSent (campaignW, []) 0 sentRecipient
    (by decide) (by decide),
   recipient_terminal_amended.2 true dbSent bouncedReq 0 sentRecipient
    ⟨"r1", "c1", "a@example.com", EmailRecipientStatus.failed, some 7,
      some "bad address", some "em1", some "bounced"⟩ (by decide) (by decide)⟩

end EmailCron

namespace EmailCron

/-- C8: every webhook rejection path — unset secret, missing signature
headers, failed signature verification — and the acknowledge-and-discard
path for unrecognized event types returns the store unchanged: no
DeliveryEvent record is created and no recipient is mutated before the
persist step. -/
theorem webhook_reject_no_write :
    (∀ (db : DB) (req : WebhookRequest),
      webhookPOST false db req = (db, WebhookResponse.secretUnset)) ∧
    (∀ (sc : Bool) (db : DB) (req : WebhookRequest),
      ¬ (strTruthy req.headers.svixId = true ∧
         strTruthy req.headers.svixTimestamp = true ∧
         strTruthy req.headers.svixSignature = true) →
      (webhookPOST sc db req).1 = db) ∧
    (∀ (sc : Bool) (db : DB) (req : WebhookRequest),
      req.signatureValid = false → (webhookPOST sc db req).1 = db) ∧
    (∀ (sc : Bool) (db : DB) (req : WebhookRequest),
      ¬ (strTruthy req.body.type = true ∧
         isEmailEvent (req.body.type.getD "") = true) →
      (webhookPOST sc db req).1 = db) := by
  refine ⟨?_, ?_, ?_, ?_⟩
  · intro db req
    simp [webhookPOST]
  · intro sc db req h
    simp only [webhookPOST]
    split
    · rfl
    · simp [h]
  · intro sc db req h
    simp only [webhookPOST]
    split
    · rfl
    · split
      · rfl
      · simp [h]
  · intro sc db req h
    simp only [webhookPOST]
    split
    · rfl
    · split
      · rfl
      · split
        · rfl
        · simp [h]

/-- Witness for the C8 theorem: with a configured secret, a request with a
missing header, a request with an invalid signature, and a verified
request of an unrecognized type all leave the store `dbSent` unchanged,
and with the secret unset the handler rejects outright. -/
theorem webhook_reject_no_write_witness :
    webhookPOST false dbSent bouncedReq = (dbSent, WebhookResponse.secretUnset) ∧
    (webhookPOST true dbSent noHeaderReq).1 = dbSent ∧
    (webhookPOST true dbSent badSigReq).1 = dbSent ∧
    (webhookPOST true dbSent unrecognizedReq).1 = dbSent :=
  ⟨webhook_reject_no_write.1 dbSent bouncedReq,
   webhook_reject_no_write.2.1 true dbSent noHeaderReq (by decide),
   webhook_reject_no_write.2.2.1 true dbSent badSigReq (by decide),
   webhook_reject_no_write.2.2.2 true dbSent unrecognizedReq (by decide)⟩

end EmailCron

namespace EmailCron

/-- C4: idempotent webhook.  For a verified request carrying a recognized
delivery event whose svix id is not yet recorded, the first delivery
persists exactly one DeliveryEvent record for that identity and is
acknowledged; delivering the same signed body again returns the store
completely unchanged (no second record, no recipient mutation) with the
same acknowledgement. -/
theorem webhook_idempotent
    (db : DB) (req : WebhookRequest) (sid : String)
    (hid : req.headers.svixId = some sid) (hsid : sid ≠ "")
    (hts : strTruthy req.headers.svixTimestamp = true)
    (hsig : strTruthy req.headers.svixSignature = true)
    (hvalid : req.signatureValid = true)
    (htype : strTruthy req.body.type = true)
    (hev : isEmailEvent (req.body.type.getD "") = true)
    (hnew : db.webhookEvents.countP (fun e => decide (e.svixId = sid)) = 0) :
    ((webhookPOST true db req).1).webhookEvents.countP
      (fun e => decide (e.svixId = sid)) = 1 ∧
    (webhookPOST true db req).2 = WebhookResponse.received ∧
    webhookPOST true (webhookPOST true db req).1 req =
      ((webhookPOST true db req).1, WebhookResponse.received) := by
  have hheads : strTruthy req.headers.svixId = true := by
    rw [hid]
    simpa [strTruthy] using hsid
  have hfindnone : db.webhookEvents.find?
      (fun e => decide (e.svixId = req.headers.svixId.getD "")) = none := by
    refine List.find?_eq_none.mpr (fun e he => ?_)
    have h6 := List.countP_eq_zero.mp hnew e he
    simpa [hid] using h6
  have hEv : ((webhookPOST true db req).1).webhookEvents =
      db.webhookEvents ++ [⟨req.headers.svixId.getD "", req.body.type.getD "",
        req.body.emailId⟩] := by
    simp only [webhookPOST]
    simp only [hvalid, hfindnone]
    simp [hheads, hts, hsig, htype, hev]
    split <;> rfl
  have hResp : (webhookPOST true db req).2 = WebhookResponse.received := by
    simp only [webhookPOST]
    simp only [hvalid, hfindnone]
    simp [hheads, hts, hsig, htype, hev]
    split <;> rfl
  refine ⟨?_, hResp, ?_⟩
  · rw [hEv, List.countP_append]
    have h7 : db.webhookEvents.countP
        (fun e => decide (e.svixId = sid)) = 0 := hnew
    simp [hid, h7]
  · set D := (webhookPOST true db req).1 with hDdef
    have hmem : ∃ x ∈ D.webhookEvents, x.svixId = req.headers.svixId.getD "" := by
      rw [hEv]
      refine ⟨⟨req.headers.svixId.getD "", req.body.type.getD "", req.body.emailId⟩,
        List.mem_append_right _ (List.mem_singleton.mpr rfl), rfl⟩
    simp [webhookPOST, hheads, hts, hsig, hvalid, htype, hev, hmem]

end EmailCron

namespace EmailCron

/-- Witness for the C4 theorem: delivering the bounce event `evt1` twice
against `dbSent` stores exactly one record for `evt1`, and the second
delivery is acknowledged with the store unchanged. -/
theorem webhook_idempotent_witness :
    ((webhookPOST true dbSent bouncedReq).1).webhookEvents.countP
      (fun e => decide (e.svixId = "evt1")) = 1 ∧
    (webhookPOST true dbSent bouncedReq).2 = WebhookResponse.received ∧
    webhookPOST true (webhookPOST true dbSent bouncedReq).1 bouncedReq =
      ((webhookPOST true dbSent bouncedReq).1, WebhookResponse.received) :=
  webhook_idempotent dbSent bouncedReq "evt1" rfl (by decide) (by decide)
    (by decide) rfl (by decide) (by decide) (by decide)

end EmailCron

namespace EmailCron

lemma getElem?_mapIdx {α β : Type} (l : List α) (f : Nat → α → β) (n : Nat) :
    (l.mapIdx f)[n]? = (l[n]?).map (f n) := by
  by_cases hn : n < l.length
  · rw [List.getElem?_eq_getElem (by simpa [List.length_mapIdx] using hn),
      List.getElem?_eq_getElem hn, Option.map_some']
    exact congrArg some (by simp)
  · rw [List.getElem?_eq_none (by simpa [List.length_mapIdx] using Nat.le_of_not_lt hn),
      List.getElem?_eq_none (Nat.le_of_not_lt hn)]
    rfl

lemma batchOutcomes_to_map (resp : ProviderResponse) (batch : List BulkEmail)
    (hlen : ∀ ids, resp = ProviderResponse.items ids → ids.length = batch.length) :
    (batchOutcomes resp batch).map (fun r => r.to) = batch.map (fun e => e.to) := by
  cases resp with
  | thrown m => simp [batchOutcomes]
  | errorResp m => simp [batchOutcomes]
  | noData => simp [batchOutcomes]
  | items ids =>
      have h := hlen ids rfl
      refine List.ext_get? (fun n => ?_)
      simp only [batchOutcomes]
      rw [List.get?_eq_getElem?, List.get?_eq_getElem?, List.getElem?_map,
        List.getElem?_map, getElem?_mapIdx]
      by_cases hn : n < ids.length
      · have hnb : n < batch.length := by omega
        rw [List.getElem?_eq_getElem hn, List.getElem?_eq_getElem hnb]
        simp [batchOutcomes, List.get?_eq_getElem?, List.getElem?_eq_getElem hnb]
      · rw [List.getElem?_eq_none (Nat.le_of_not_lt hn),
          List.getElem?_eq_none (show batch.length ≤ n by omega)]
        rfl

lemma chunkRun_to_map (provider : Nat → ProviderResponse)
    (opts : SendBulkEmailsOptions) (bm1 : Nat) :
    ∀ (emails : List BulkEmail) (bIdx : Nat),
      (∀ j ids, provider (bIdx + j) = ProviderResponse.items ids →
        ids.length = ((emails.drop (j * (bm1 + 1))).take (bm1 + 1)).length) →
      ((chunkRun provider opts bm1 bIdx emails).1).map (fun r => r.to) =
        emails.map (fun e => e.to)
  | [], _, _ => by simp [chunkRun]
  | e :: es, bIdx, H => by
      have hbatch : (batchOutcomes (provider bIdx) ((e :: es).take (bm1 + 1))).map
          (fun r => r.to) = ((e :: es).take (bm1 + 1)).map (fun x => x.to) := by
        refine batchOutcomes_to_map (provider bIdx) _ (fun ids hp => ?_)
        have := H 0 ids (by simpa using hp)
        simpa using this
      have H2 : ∀ j ids, provider (bIdx + 1 + j) = ProviderResponse.items ids →
          ids.length = (((es.drop bm1).drop (j * (bm1 + 1))).take (bm1 + 1)).length := by
        intro j ids hp
        have hp2 : provider (bIdx + (j + 1)) = ProviderResponse.items ids := by
          rwa [(by omega : bIdx + 1 + j = bIdx + (j + 1))] at hp
        have h3 := H (j + 1) ids hp2
        rw [(by ring : (j + 1) * (bm1 + 1) = (j * (bm1 + 1) + bm1) + 1),
          List.drop_succ_cons] at h3
        rw [List.drop_drop]
        rwa [(by ring : bm1 + j * (bm1 + 1) = j * (bm1 + 1) + bm1)]
      have ih := chunkRun_to_map provider opts bm1 (es.drop bm1) (bIdx + 1) H2
      have hsplit : ((e :: es).take (bm1 + 1)).map (fun x => x.to) ++
          (es.drop bm1).map (fun x => x.to) = (e :: es).map (fun x => x.to) := by
        rw [← List.map_append]
        congr 1
        rw [(by rfl : (es.drop bm1) = ((e :: es).drop (bm1 + 1))),
          List.take_append_drop]
      simp only [chunkRun, List.map_append, hbatch, ih, hsplit]
  termination_by emails => emails.length
  decreasing_by
    simp only [List.length_drop, List.length_cons]
    omega

lemma sendBulkGo_eq_chunkRun (provider : Nat → ProviderResponse)
    (opts : SendBulkEmailsOptions) (bm1 : Nat)
    (hb : batchSizeOf opts = bm1 + 1) :
    ∀ (fuel : Nat) (emails : List BulkEmail) (bIdx : Nat),
      emails.length ≤ fuel →
      sendBulkGo provider opts fuel bIdx emails =
        some (chunkRun provider opts bm1 bIdx emails)
  | fuel, [], bIdx, _ => by
      cases fuel <;> simp [sendBulkGo, chunkRun]
  | 0, e :: es, _, hlen => by
      simp at hlen
  | fuel + 1, e :: es, bIdx, hlen => by
      have hlen2 : (es.drop bm1).length ≤ fuel := by
        simp only [List.length_drop]
        simp only [List.length_cons] at hlen
        omega
      have ih := sendBulkGo_eq_chunkRun provider opts bm1 hb fuel (es.drop bm1)
        (bIdx + 1) hlen2
      simp only [sendBulkGo, hb, List.drop_succ_cons]
      rw [ih]
      simp only [chunkRun]

lemma sendBulkGo_zero (provider : Nat → ProviderResponse)
    (opts : SendBulkEmailsOptions) (hb : batchSizeOf opts = 0) :
    ∀ (fuel bIdx : Nat) (e : BulkEmail) (es : List BulkEmail),
      sendBulkGo provider opts fuel bIdx (e :: es) = none
  | 0, _, _, _ => rfl
  | fuel + 1, bIdx, e, es => by
      simp only [sendBulkGo, hb, List.drop_zero]
      rw [sendBulkGo_zero provider opts hb fuel (bIdx + 1) e es]

end EmailCron

namespace EmailCron

/-- C7: a chunk-level provider failure — a thrown batch call or a
top-level error response — does not raise: the chunk contributes one
failure outcome per member, all sharing the same error message, and the
loop continues with the remaining chunks; and for any positive batch size
the fuel-based loop equals the chunk-structured run, so every chunk is
processed. -/
theorem chunk_failure_isolated :
    (∀ (provider : Nat → ProviderResponse) (opts : SendBulkEmailsOptions)
      (bm1 bIdx : Nat) (e : BulkEmail) (es : List BulkEmail) (m : Option String),
      provider bIdx = ProviderResponse.thrown m →
      chunkRun provider opts bm1 bIdx (e :: es) =
        (((e :: es).take (bm1 + 1)).map
            (fun x => ⟨x.to, false, some (m.getD "Failed to send"), none⟩) ++
          (chunkRun provider opts bm1 (bIdx + 1) (es.drop bm1)).1,
         ⟨bIdx, bulkKey opts bIdx, (e :: es).take (bm1 + 1)⟩ ::
          (chunkRun provider opts bm1 (bIdx + 1) (es.drop bm1)).2)) ∧
    (∀ (provider : Nat → ProviderResponse) (opts : SendBulkEmailsOptions)
      (bm1 bIdx : Nat) (e : BulkEmail) (es : List BulkEmail) (m : Option String),
      provider bIdx = ProviderResponse.errorResp m →
      chunkRun provider opts bm1 bIdx (e :: es) =
        (((e :: es).take (bm1 + 1)).map
            (fun x => ⟨x.to, false,
              some (if strTruthy m then m.getD "" else "Batch send failed"), none⟩) ++
          (chunkRun provider opts bm1 (bIdx + 1) (es.drop bm1)).1,
         ⟨bIdx, bulkKey opts bIdx, (e :: es).take (bm1 + 1)⟩ ::
          (chunkRun provider opts bm1 (bIdx + 1) (es.drop bm1)).2)) ∧
    (∀ (provider : Nat → ProviderResponse) (opts : SendBulkEmailsOptions)
      (bm1 : Nat) (emails : List BulkEmail),
      batchSizeOf opts = bm1 + 1 →
      sendBulkEmails provider emails opts =
        some (chunkRun provider opts bm1 0 emails)) := by
  refine ⟨?_, ?_, ?_⟩
  · intro provider opts bm1 bIdx e es m hp
    simp only [chunkRun, hp, batchOutcomes]
  · intro provider opts bm1 bIdx e es m hp
    simp only [chunkRun, hp, batchOutcomes]
  · intro provider opts bm1 emails hb
    exact sendBulkGo_eq_chunkRun provider opts bm1 hb (emails.length + 1) emails 0
      (Nat.le_succ _)

/-- Witness for the C7 theorem: a throwing provider turns the single chunk
of `[emailW]` into one shared-message failure outcome, and under the
cron's batch size 10 the loop equals the chunk-structured run. -/
theorem chunk_failure_isolated_witness :
    chunkRun thrownProvider cronBulkSendOptions 9 0 ([emailW] : List BulkEmail) =
      ((([emailW] : List BulkEmail).take 10).map
          (fun x => ⟨x.to, false, some ((some "netdown").getD "Failed to send"), none⟩) ++
        (chunkRun thrownProvider cronBulkSendOptions 9 1
          (([] : List BulkEmail).drop 9)).1,
       ⟨0, bulkKey cronBulkSendOptions 0, ([emailW] : List BulkEmail).take 10⟩ ::
        (chunkRun thrownProvider cronBulkSendOptions 9 1
          (([] : List BulkEmail).drop 9)).2) ∧
    sendBulkEmails thrownProvider [emailW] cronBulkSendOptions =
      some (chunkRun thrownProvider cronBulkSendOptions 9 0 [emailW]) :=
  ⟨chunk_failure_isolated.1 thrownProvider cronBulkSendOptions 9 0 emailW []
    (some "netdown") rfl,
   chunk_failure_isolated.2.2 thrownProvider cronBulkSendOptions 9 [emailW]
    (by decide)⟩

end EmailCron

namespace EmailCron

/-- C10: with a positive effective batch size (a requested size of at
least 1, or the omitted default of 10), `sendBulkEmails` terminates on
every input and — provided the provider's item responses carry one item
per chunk member, per the batch interface contract — returns outcomes
whose addresses are exactly the input addresses in input order.  The
positivity precondition is necessary: with an effective batch size of 0
the loop index never advances, so for any non-empty input the loop runs
out of any amount of fuel. -/
theorem bulk_terminates_order :
    (∀ (provider : Nat → ProviderResponse) (opts : SendBulkEmailsOptions)
      (emails : List BulkEmail) (bm1 : Nat),
      batchSizeOf opts = bm1 + 1 →
      (∀ k ids, provider k = ProviderResponse.items ids →
        ids.length = ((emails.drop (k * (bm1 + 1))).take (bm1 + 1)).length) →
      ∃ R C, sendBulkEmails provider emails opts = some (R, C) ∧
        R.map (fun r => r.to) = emails.map (fun e => e.to)) ∧
    (∀ (provider : Nat → ProviderResponse) (opts : SendBulkEmailsOptions)
      (fuel bIdx : Nat) (e : BulkEmail) (es : List BulkEmail),
      batchSizeOf opts = 0 →
      sendBulkGo provider opts fuel bIdx (e :: es) = none) := by
  constructor
  · intro provider opts emails bm1 hb H
    refine ⟨(chunkRun provider opts bm1 0 emails).1,
      (chunkRun provider opts bm1 0 emails).2, ?_, ?_⟩
    · exact sendBulkGo_eq_chunkRun provider opts bm1 hb (emails.length + 1) emails 0
        (Nat.le_succ _)
    · refine chunkRun_to_map provider opts bm1 emails 0 (fun j ids hp => ?_)
      exact H j ids (by simpa using hp)
  · intro provider opts fuel bIdx e es hb
    exact sendBulkGo_zero provider opts hb fuel bIdx e es

/-- Witness for the C10 theorem: under the cron options (batch size 10)
with a throwing provider (which returns no item lists, so the alignment
hypothesis holds vacuously), dispatching `[emailW]` terminates with
outcomes addressed in input order; and with a zero batch size the loop on
`[emailW]` returns no result for fuel 5. -/
theorem bulk_terminates_order_witness :
    (∃ R C, sendBulkEmails thrownProvider [emailW] cronBulkSendOptions =
        some (R, C) ∧
      R.map (fun r => r.to) = ([emailW] : List BulkEmail).map (fun e => e.to)) ∧
    sendBulkGo thrownProvider ⟨some 0, some 1000, none⟩ 5 0 [emailW] = none :=
  ⟨bulk_terminates_order.1 thrownProvider cronBulkSendOptions [emailW] 9
    (by decide) (fun k ids hp => by simp [thrownProvider] at hp),
   bulk_terminates_order.2 thrownProvider ⟨some 0, some 1000, none⟩ 5 0 emailW []
    (by decide)⟩

end EmailCron

namespace EmailCron

lemma chunkRun_calls (provider : Nat → ProviderResponse)
    (opts : SendBulkEmailsOptions) (bm1 : Nat) :
    ∀ (emails : List BulkEmail) (bIdx : Nat),
      ∀ call ∈ (chunkRun provider opts bm1 bIdx emails).2,
        call.idempotencyKey = bulkKey opts call.batchIndex
  | [], _, call, hmem => by simp [chunkRun] at hmem
  | e :: es, bIdx, call, hmem => by
      simp only [chunkRun, List.mem_cons] at hmem
      rcases hmem with h | h
      · rw [h]
      · exact chunkRun_calls provider opts bm1 (es.drop bm1) (bIdx + 1) call h
  termination_by emails => emails.length
  decreasing_by
    simp only [List.length_drop, List.length_cons]
    omega

/-- C5 counterexample: the claim cycle's dispatch passes no
idempotency-key option (cron-service.ts passes only `batchSize` and
`delayBetweenBatches`), so the provider batch call it issues for a
recipient chunk carries no idempotency token at all: dispatching one email
under the cron options issues exactly one call whose `idempotencyKey` is
absent, contradicting the claim that every such call carries a token. -/
theorem bulk_idempotency_key_missing_cron :
    sendBulkEmails itemsProvider [emailW] cronBulkSendOptions =
      some ([⟨"a@example.com", true, none, some "em1"⟩],
            [⟨0, none, [emailW]⟩]) := by
  decide

/-- C5 amended: a provider batch call carries the deterministic token
`<stem>-batch-<chunkIndex>` exactly when the caller supplies an
idempotency-key stem (as the interactive send route does with the campaign
id); the claim cycle's dispatch supplies none, so every call it issues
carries no token. -/
theorem bulk_idempotency_key_amended :
    (∀ (provider : Nat → ProviderResponse) (opts : SendBulkEmailsOptions)
      (p : String) (bm1 : Nat) (emails : List BulkEmail)
      (R : List SendBulkEmailResult) (C : List ProviderCall),
      batchSizeOf opts = bm1 + 1 →
      opts.idempotencyKeyBase = some p →
      sendBulkEmails provider emails opts = some (R, C) →
      ∀ call ∈ C, call.idempotencyKey =
        some (p ++ "-batch-" ++ toString call.batchIndex)) ∧
    (∀ (provider : Nat → ProviderResponse) (emails : List BulkEmail)
      (R : List SendBulkEmailResult) (C : List ProviderCall),
      sendBulkEmails provider emails cronBulkSendOptions = some (R, C) →
      ∀ call ∈ C, call.idempotencyKey = none) := by
  constructor
  · intro provider opts p bm1 emails R C hb hbase hsend
    have hbridge := sendBulkGo_eq_chunkRun provider opts bm1 hb
      (emails.length + 1) emails 0 (Nat.le_succ _)
    have h2 : some ((R, C) : List SendBulkEmailResult × List ProviderCall) =
        some (chunkRun provider opts bm1 0 emails) := hsend.symm.trans hbridge
    have hC : C = (chunkRun provider opts bm1 0 emails).2 :=
      congrArg Prod.snd (Option.some.inj h2)
    intro call hc
    rw [hC] at hc
    rw [chunkRun_calls provider opts bm1 emails 0 call hc]
    simp [bulkKey, hbase]
  · intro provider emails R C hsend
    have hb : batchSizeOf cronBulkSendOptions = 9 + 1 := by decide
    have hbridge := sendBulkGo_eq_chunkRun provider cronBulkSendOptions 9 hb
      (emails.length + 1) emails 0 (Nat.le_succ _)
    have h2 : some ((R, C) : List SendBulkEmailResult × List ProviderCall) =
        some (chunkRun provider cronBulkSendOptions 9 0 emails) :=
      hsend.symm.trans hbridge
    have hC : C = (chunkRun provider cronBulkSendOptions 9 0 emails).2 :=
      congrArg Prod.snd (Option.some.inj h2)
    intro call hc
    rw [hC] at hc
    rw [chunkRun_calls provider cronBulkSendOptions 9 emails 0 call hc]
    simp [bulkKey, cronBulkSendOptions]

/-- Witness for the amended C5 theorem: with stem `c1` the sole call of a
one-email dispatch carries `c1-batch-0`; under the cron options the sole
call carries no token. -/
theorem bulk_idempotency_key_amended_witness :
    (⟨0, some "c1-batch-0", [emailW]⟩ : ProviderCall).idempotencyKey =
      some ("c1" ++ "-batch-" ++ toString
        ((⟨0, some "c1-batch-0", [emailW]⟩ : ProviderCall).batchIndex)) ∧
    (⟨0, none, [emailW]⟩ : ProviderCall).idempotencyKey = none :=
  ⟨bulk_idempotency_key_amended.1 itemsProvider keyedOpts "c1" 9 [emailW]
    [⟨"a@example.com", true, none, some "em1"⟩]
    [⟨0, some "c1-batch-0", [emailW]⟩] (by decide) rfl (by decide)
    ⟨0, some "c1-batch-0", [emailW]⟩ (by decide),
   bulk_idempotency_key_amended.2 itemsProvider [emailW]
    [⟨"a@example.com", true, none, some "em1"⟩]
    [⟨0, none, [emailW]⟩] (by decide)
    ⟨0, none, [emailW]⟩ (by decide)⟩

end EmailCron

namespace EmailCron

/-- C9 counterexample: outside production the cron route runs the claim
cycle without any authorization check.  In the development environment a
request with no Authorization header (matching no bearer secret) is not
rejected: the cycle runs, reads the due campaign and writes it through to
SENT — the store both read and mutated for an unauthorized request. -/
theorem cron_auth_dev_bypass :
    devEnv.nodeEnv ≠ "production" ∧
    (none : Option String) ≠ some ("Bearer " ++ "s3cret") ∧
    cronGET devEnv none okOracle 10 dbDue =
      (⟨[⟨"c1", "Hello", "<p>Hi</p>", EmailCampaignStatus.sent, some 5, some 10⟩],
        [], []⟩,
       CronResponse.ok 1 0 0 []) ∧
    (cronGET devEnv none okOracle 10 dbDue).1 ≠ dbDue := by
  refine ⟨by decide, by decide, by decide, by decide⟩

/-- C9 amended: in production mode, a request whose Authorization header
does not match `Bearer <CRON_SECRET>` — and likewise any request when the
secret is unset — is rejected with 401 before any store access: the
handler returns the store unchanged without invoking the claim cycle. -/
theorem cron_auth_production
    (env : CronEnv) (authHeader : Option String) (oracle : DispatchOracle)
    (now : Nat) (db : DB)
    (hprod : env.nodeEnv = "production")
    (hmismatch : ¬ strTruthy env.cronSecret = true ∨
      authHeader ≠ some ("Bearer " ++ env.cronSecret.getD "")) :
    (cronGET env authHeader oracle now db).1 = db ∧
    ((cronGET env authHeader oracle now db).2 = CronResponse.unauthorizedNoSecret ∨
     (cronGET env authHeader oracle now db).2 = CronResponse.unauthorized) := by
  simp only [cronGET, hprod]
  rcases hmismatch with h | h
  · simp [h]
  · by_cases hs : strTruthy env.cronSecret = true
    · simp [hs, h]
    · simp [hs]

/-- Witness for the amended C9 theorem: in production, a request with no
Authorization header leaves the store with the due campaign unchanged and
is answered with a 401 response. -/
theorem cron_auth_production_witness :
    (cronGET prodEnv none okOracle 10 dbDue).1 = dbDue ∧
    ((cronGET prodEnv none okOracle 10 dbDue).2 = CronResponse.unauthorizedNoSecret ∨
     (cronGET prodEnv none okOracle 10 dbDue).2 = CronResponse.unauthorized) :=
  cron_auth_production prodEnv none okOracle 10 dbDue rfl (Or.inr (by decide))

end EmailCron
